import Mathlib

/-!
Shallow embedding of the MMM-HK-Transport-ETA-Data collection pipeline
(JavaScript) in Lean 4, with theorems checking the natural-language
specification against the code.

Conventions of the embedding:
* JSON values are modelled by the inductive `Json` (numbers as `Int`; the
  pipeline only handles identifiers, names, coordinates encoded as strings,
  and small integer sequence numbers).
* A JavaScript object is an insertion-ordered association list
  `List (String × Json)`; the spread update `\x7b...o, k: v\x7d` is `objSet`.
* JavaScript truthiness is `Json.truthy`.
* Promises are modelled by settled outcomes: a processor is a function
  returning `Except err val`, and `Promise.allSettled` wraps each outcome
  into `Settled` (fulfilled value or rejection reason).
* Wall-clock instants (`Date.now()`, `new Date().toISOString()`) are passed
  as explicit parameters.
-/

/-- Model of a JSON value (numbers restricted to `Int`, which covers every
numeric field the pipeline manipulates). -/
inductive Json : Type where
  | null : Json
  | bool : Bool → Json
  | num : Int → Json
  | str : String → Json
  | arr : List Json → Json
  | obj : List (String × Json) → Json

/-- JavaScript truthiness of a JSON value: `null`, `false`, `0` and `""` are
falsy; arrays and objects are always truthy. -/
def Json.truthy : Json → Bool
  | .null => false
  | .bool b => b
  | .num n => n ≠ 0
  | .str s => s ≠ ""
  | .arr _ => true
  | .obj _ => true

/-- A JavaScript object: insertion-ordered association list of fields. -/
abbrev JsObj := List (String × Json)

/-- Field lookup `o[k]`, returning `none` when the field is absent
(JavaScript `undefined`). -/
def objLookup (k : String) : JsObj → Option Json
  | [] => none
  | (k₂, v) :: rest => if k₂ = k then some v else objLookup k rest

/-- Field update as performed by an object spread `\x7b...o, k: v\x7d`: an
existing field keeps its position and receives the new value, a new field is
appended at the end. -/
def objSet (o : JsObj) (k : String) (v : Json) : JsObj :=
  match o with
  | [] => [(k, v)]
  | (k₂, v₂) :: rest => if k₂ = k then (k, v) :: rest else (k₂, v₂) :: objSet rest k v

theorem objLookup_objSet_self (o : JsObj) (k : String) (v : Json) :
    objLookup k (objSet o k v) = some v := by
  induction o with
  | nil => simp [objSet, objLookup]
  | cons p rest ih =>
    obtain ⟨k₂, v₂⟩ := p
    by_cases h : k₂ = k
    · simp [objSet, objLookup, h]
    · simp [objSet, objLookup, h, ih]

theorem objLookup_objSet_other (o : JsObj) (k k₂ : String) (v : Json)
    (h : k₂ ≠ k) : objLookup k (objSet o k₂ v) = objLookup k o := by
  induction o with
  | nil => simp [objSet, objLookup, h]
  | cons p rest ih =>
    obtain ⟨k₃, v₃⟩ := p
    by_cases h₃ : k₃ = k₂
    · subst h₃
      simp [objSet, objLookup, h]
    · by_cases h₄ : k₃ = k
      · subst h₄
        simp [objSet, objLookup, h₃]
      · simp [objSet, objLookup, h₃, h₄, ih]

/-! ## Concurrency batcher (`processWithConcurrency`)

Source: `src/lib/api-client.js` lines 99–111 and `src/unnamed/part_000`
lines 116–126.  The loop slices the item list into consecutive batches of
size `limit`, runs `Promise.allSettled(batch.map(processor))`, and pushes
the settled batch results onto one flat output array. -/

/-- Outcome of a settled promise, as produced by `Promise.allSettled`. -/
inductive Settled (ε : Type) (α : Type) : Type where
  | fulfilled : α → Settled ε α
  | rejected : ε → Settled ε α
deriving DecidableEq, Repr

/-- Settle one processor outcome (`Promise.allSettled` on a single item). -/
def settle {ε α : Type} : Except ε α → Settled ε α
  | .ok v => .fulfilled v
  | .error e => .rejected e

/-- Embedding of `processWithConcurrency(items, processor, limit)`.  The
processor is modelled by its settled outcome in isolation, `α → Except ε β`.
With `limit = 0` the JavaScript loop never advances (`i += 0`); the claim is
restricted to positive limits and the embedding returns `[]` there to stay
total. -/
def processWithConcurrency {α ε β : Type} :
    List α → (α → Except ε β) → Nat → List (Settled ε β)
  | [], _, _ => []
  | x :: xs, proc, limit =>
    if h : limit = 0 then []
    else
      ((x :: xs).take limit).map (fun item => settle (proc item)) ++
        processWithConcurrency ((x :: xs).drop limit) proc limit
termination_by items _ _ => items.length
decreasing_by
  simp only [List.length_drop]
  exact Nat.sub_lt (Nat.succ_pos _) (Nat.pos_of_ne_zero h)

theorem processWithConcurrency_eq_map {α ε β : Type} (proc : α → Except ε β)
    (limit : Nat) (hpos : 0 < limit) :
    ∀ (n : Nat) (items : List α), items.length ≤ n →
      processWithConcurrency items proc limit =
        items.map (fun item => settle (proc item)) := by
  intro n
  induction n with
  | zero =>
    intro items hlen
    have : items = [] := List.eq_nil_of_length_eq_zero (Nat.le_zero.mp hlen)
    subst this
    simp [processWithConcurrency]
  | succ n ih =>
    intro items hlen
    match items with
    | [] => simp [processWithConcurrency]
    | x :: xs =>
      have hne : limit ≠ 0 := Nat.pos_iff_ne_zero.mp hpos
      rw [processWithConcurrency, dif_neg hne]
      have hdrop : ((x :: xs).drop limit).length ≤ n := by
        simp only [List.length_drop]
        omega
      rw [ih _ hdrop, ← List.map_append, List.take_append_drop]

/-- C1: for every item list, processor and positive batch limit,
`processWithConcurrency` returns exactly the input-ordered list of the
settled outcomes the processor would produce on each item in isolation: the
output equals the map of per-item settlement, it has the same length as the
input, and the element at every position is the isolated settled outcome of
the input item at that position (so a rejecting item never removes or aborts
the results of other items). -/
theorem processWithConcurrency_settles_in_order {α ε β : Type} (items : List α)
    (proc : α → Except ε β) (limit : Nat) (hpos : 0 < limit) :
    processWithConcurrency items proc limit =
        items.map (fun item => settle (proc item)) ∧
      (processWithConcurrency items proc limit).length = items.length ∧
      ∀ i : Nat, (processWithConcurrency items proc limit)[i]? =
        (items[i]?).map (fun item => settle (proc item)) := by
  have h := processWithConcurrency_eq_map proc limit hpos items.length items le_rfl
  refine ⟨h, ?_, ?_⟩
  · rw [h, List.length_map]
  · intro i
    rw [h, List.getElem?_map]

/-- Witness for C1 at a concrete input: three items with a positive limit of
2, where the middle item rejects; the output keeps all three settled results
in input order. -/
theorem processWithConcurrency_settles_in_order_witness :
    0 < 2 ∧
      processWithConcurrency [1, 2, 3]
          (fun n : Nat => if n = 2 then Except.error "boom" else Except.ok n) 2 =
        [Settled.fulfilled 1, Settled.rejected "boom", Settled.fulfilled 3] :=
  ⟨by decide,
    ((processWithConcurrency_settles_in_order [1, 2, 3]
          (fun n : Nat => if n = 2 then Except.error "boom" else Except.ok n) 2
          (by decide)).1).trans (by rfl)⟩

/-! ## Lexicographic string order

JavaScript compares strings (default `Array.prototype.sort()` and, for the
one-character direction tags `"I"`/`"O"`, `localeCompare`) by code units;
on the identifiers this pipeline handles, that is plain lexicographic order
on the character sequences.  The comparator is embedded executably on
`String.data`. -/

/-- Lexicographic less-or-equal on character lists. -/
def charListLeb : List Char → List Char → Bool
  | [], _ => true
  | _ :: _, [] => false
  | a :: as, b :: bs =>
    if a < b then true else if b < a then false else charListLeb as bs

theorem charListLeb_cons (a b : Char) (as bs : List Char) :
    charListLeb (a :: as) (b :: bs) = true ↔
      a < b ∨ (a = b ∧ charListLeb as bs = true) := by
  simp only [charListLeb]
  rcases lt_trichotomy a b with h | h | h
  · simp [h]
  · subst h
    simp [lt_irrefl]
  · have h₁ : ¬a < b := asymm h
    have h₂ : a ≠ b := ne_of_gt h
    simp [h₁, h, h₂]

theorem charListLeb_total : ∀ a b : List Char,
    charListLeb a b = true ∨ charListLeb b a = true
  | [], _ => Or.inl rfl
  | _ :: _, [] => Or.inr rfl
  | a :: as, b :: bs => by
    rcases lt_trichotomy a b with h | h | h
    · exact Or.inl ((charListLeb_cons a b as bs).mpr (Or.inl h))
    · subst h
      rcases charListLeb_total as bs with h₂ | h₂
      · exact Or.inl ((charListLeb_cons a a as bs).mpr (Or.inr ⟨rfl, h₂⟩))
      · exact Or.inr ((charListLeb_cons a a bs as).mpr (Or.inr ⟨rfl, h₂⟩))
    · exact Or.inr ((charListLeb_cons b a bs as).mpr (Or.inl h))

theorem charListLeb_trans : ∀ a b c : List Char,
    charListLeb a b = true → charListLeb b c = true → charListLeb a c = true
  | [], _, _, _, _ => rfl
  | _ :: _, [], _, hab, _ => by simp [charListLeb] at hab
  | _ :: _, _ :: _, [], _, hbc => by simp [charListLeb] at hbc
  | a :: as, b :: bs, c :: cs, hab, hbc => by
    rw [charListLeb_cons] at hab hbc ⊢
    rcases hab with h₁ | ⟨h₁, h₁r⟩ <;> rcases hbc with h₂ | ⟨h₂, h₂r⟩
    · exact Or.inl (lt_trans h₁ h₂)
    · exact Or.inl (h₂ ▸ h₁)
    · exact Or.inl (h₁ ▸ h₂)
    · exact Or.inr ⟨h₁.trans h₂, charListLeb_trans as bs cs h₁r h₂r⟩

theorem charListLeb_antisymm : ∀ a b : List Char,
    charListLeb a b = true → charListLeb b a = true → a = b
  | [], [], _, _ => rfl
  | [], _ :: _, _, hba => by simp [charListLeb] at hba
  | _ :: _, [], hab, _ => by simp [charListLeb] at hab
  | a :: as, b :: bs, hab, hba => by
    rw [charListLeb_cons] at hab hba
    rcases hab with h₁ | ⟨h₁, h₁r⟩
    · rcases hba with h₂ | ⟨h₂, -⟩
      · exact absurd h₂ (asymm h₁)
      · exact absurd h₁ (h₂ ▸ lt_irrefl b)
    · subst h₁
      rcases hba with h₂ | ⟨-, h₂r⟩
      · exact absurd h₂ (lt_irrefl a)
      · rw [charListLeb_antisymm as bs h₁r h₂r]

/-- Lexicographic string order used by the embedding of JavaScript string
comparison. -/
def strLe (a b : String) : Prop := charListLeb a.data b.data = true

instance : DecidableRel strLe := fun a b =>
  inferInstanceAs (Decidable (charListLeb a.data b.data = true))

instance : IsTotal String strLe :=
  ⟨fun a b => charListLeb_total a.data b.data⟩

instance : IsTrans String strLe :=
  ⟨fun a b c => charListLeb_trans a.data b.data c.data⟩

instance : IsAntisymm String strLe :=
  ⟨fun a b hab hba => by
    cases a with
    | mk da =>
      cases b with
      | mk db => rw [charListLeb_antisymm da db hab hba]⟩

/-! ## Route-set comparison (`compareRoutes`)

Source: `src/lib/base-data-collector.js` lines 59–67 and
`src/lib/data-collector.js` lines 133–141 (identical bodies).  A nullish
argument (arrays are always truthy in JavaScript) yields `false`; otherwise
the lengths are compared, both arrays are copied and sorted with the default
lexicographic string sort, and compared index by index with `every` — which,
given the equal lengths, is list equality. -/

/-- Default JavaScript `Array.prototype.sort()` on an array of strings:
stable sort by lexicographic string order. -/
def jsSortStrings (l : List String) : List String :=
  List.insertionSort strLe l

/-- Embedding of `compareRoutes(existingRoutes, newRoutes)`; `none` stands
for a nullish argument. -/
def compareRoutes : Option (List String) → Option (List String) → Bool
  | some existing, some newRoutes =>
    existing.length == newRoutes.length &&
      jsSortStrings existing == jsSortStrings newRoutes
  | _, _ => false

theorem compareRoutes_eq_perm (a b : List String) :
    compareRoutes (some a) (some b) = true ↔ a.Perm b := by
  simp only [compareRoutes, Bool.and_eq_true, beq_iff_eq, jsSortStrings]
  constructor
  · rintro ⟨-, hsort⟩
    exact ((List.perm_insertionSort _ a).symm.trans
      (hsort ▸ List.perm_insertionSort strLe b))
  · intro hperm
    refine ⟨hperm.length_eq, ?_⟩
    exact List.eq_of_perm_of_sorted
      (((List.perm_insertionSort _ a).trans hperm).trans
        (List.perm_insertionSort _ b).symm)
      (List.sorted_insertionSort _ a) (List.sorted_insertionSort _ b)

/-- C5: `compareRoutes` is order-independent equality of route arrays — on
two non-null arrays it returns true exactly when one is a permutation of the
other (same elements with the same multiplicities, regardless of order);
and the three concrete cases from the spec hold, including the null case. -/
theorem compareRoutes_order_independent :
    (∀ a b : List String, compareRoutes (some a) (some b) = true ↔ a.Perm b) ∧
      compareRoutes (some ["2", "1"]) (some ["1", "2"]) = true ∧
      compareRoutes (some ["1"]) (some ["1", "2"]) = false ∧
      compareRoutes none (some ["1"]) = false :=
  ⟨compareRoutes_eq_perm, by decide, by decide, rfl⟩

/-! ## File-based API cache (`ApiCache`)

Source: `src/lib/cache.js` lines 32–59 (`get`) and 66–88 (`set`).  The
filesystem is modelled as an association list from file name to file
(content plus modification time); `generateCacheKey` hashes the URL with
MD5 to a hex digest — an injective filesystem-safe renaming, modelled by the
URL itself (the spec accepts hash collisions as negligible); the
`JSON.stringify`/`JSON.parse` round trip on the stored entry is the
identity on JSON values, so the entry is stored structurally.  `Date.now()`
is an explicit `Nat` parameter. -/

/-- Generic association-list lookup (filesystem directory view). -/
def alistLookup {β : Type} (k : String) : List (String × β) → Option β
  | [] => none
  | (k₂, v) :: rest => if k₂ = k then some v else alistLookup k rest

/-- Generic association-list write: replace in place or append. -/
def alistSet {β : Type} (l : List (String × β)) (k : String) (v : β) :
    List (String × β) :=
  match l with
  | [] => [(k, v)]
  | (k₂, v₂) :: rest =>
    if k₂ = k then (k, v) :: rest else (k₂, v₂) :: alistSet rest k v

/-- Generic association-list removal (`fs.unlink`). -/
def alistRemove {β : Type} (k : String) : List (String × β) → List (String × β)
  | [] => []
  | (k₂, v) :: rest => if k₂ = k then rest else (k₂, v) :: alistRemove k rest

theorem alistLookup_alistSet_self {β : Type} (l : List (String × β)) (k : String)
    (v : β) : alistLookup k (alistSet l k v) = some v := by
  induction l with
  | nil => simp [alistSet, alistLookup]
  | cons p rest ih =>
    obtain ⟨k₂, v₂⟩ := p
    by_cases h : k₂ = k
    · simp [alistSet, alistLookup, h]
    · simp [alistSet, alistLookup, h, ih]

/-- Content of one cache file: the serialized entry `\x7burl, data, timestamp\x7d`. -/
structure CacheEntry where
  url : String
  data : Json
  timestamp : Nat

/-- A cache file on disk: its content and its modification time. -/
structure CacheFile where
  entry : CacheEntry
  mtime : Nat

/-- The cache directory: file name to file. -/
abbrev CacheFs := List (String × CacheFile)

/-- Static configuration of `ApiCache`: TTL in milliseconds and the
environment-controlled enablement flag. -/
structure ApiCacheConfig where
  ttl : Nat
  enabled : Bool

/-- Embedding of `generateCacheKey(url)`: the MD5 hex digest, modelled as an
injective stand-in (the URL itself). -/
def generateCacheKey (url : String) : String := url

/-- Embedding of `ApiCache.set(url, data)` at instant `now`: disabled caching
is a no-op; otherwise the entry is written under the hashed name with
`mtime = now`. -/
def cacheSet (c : ApiCacheConfig) (fs : CacheFs) (url : String) (data : Json)
    (now : Nat) : CacheFs :=
  if c.enabled then
    alistSet fs (generateCacheKey url ++ ".json") ⟨⟨url, data, now⟩, now⟩
  else fs

/-- Embedding of `ApiCache.get(url)` at instant `now`, returning the value
(`none` models the JavaScript `null` result) and the possibly purged
filesystem: disabled caching and a missing file give `none`; a file whose
age `now − mtime` is strictly below the TTL gives its stored data; an
expired file is unlinked and gives `none`. -/
def cacheGet (c : ApiCacheConfig) (fs : CacheFs) (url : String) (now : Nat) :
    Option Json × CacheFs :=
  if c.enabled then
    match alistLookup (generateCacheKey url ++ ".json") fs with
    | none => (none, fs)
    | some f =>
      if now - f.mtime < c.ttl then (some f.entry.data, fs)
      else (none, alistRemove (generateCacheKey url ++ ".json") fs)
  else (none, fs)

/-- C3: with caching enabled, a `set` immediately followed by a `get` of the
same URL within the TTL returns exactly the value that was set (deep
equality of the JSON value), and a `get` issued once the TTL has elapsed
since the write returns absent, the expired entry being treated as absent. -/
theorem cache_set_then_get (c : ApiCacheConfig) (fs : CacheFs) (url : String)
    (v : Json) (t₁ t₂ : Nat) (hen : c.enabled = true) :
    (t₂ - t₁ < c.ttl →
      (cacheGet c (cacheSet c fs url v t₁) url t₂).1 = some v) ∧
    (c.ttl ≤ t₂ - t₁ →
      (cacheGet c (cacheSet c fs url v t₁) url t₂).1 = none) := by
  constructor
  · intro hfresh
    simp [cacheGet, cacheSet, hen, alistLookup_alistSet_self, hfresh]
  · intro hstale
    simp [cacheGet, cacheSet, hen, alistLookup_alistSet_self, Nat.not_lt.mpr hstale]

/-- Witness for C3 at a concrete input: TTL 1000, write at instant 0; a read
at instant 500 returns the stored value, a read at instant 1000 is absent. -/
theorem cache_set_then_get_witness :
    (cacheGet ⟨1000, true⟩ (cacheSet ⟨1000, true⟩ [] "u" (Json.str "x") 0) "u"
        500).1 = some (Json.str "x") ∧
    (cacheGet ⟨1000, true⟩ (cacheSet ⟨1000, true⟩ [] "u" (Json.str "x") 0) "u"
        1000).1 = none :=
  ⟨(cache_set_then_get ⟨1000, true⟩ [] "u" (Json.str "x") 0 500 rfl).1 (by decide),
   (cache_set_then_get ⟨1000, true⟩ [] "u" (Json.str "x") 0 1000 rfl).2 (by decide)⟩

/-! ## Fetch client (`BaseApiClient.fetchJson`)

Source: `src/unnamed/part_000` lines 64–93.  The call sequence is traced as
a list of events: consulting the cache, acquiring a rate-limiter slot
(invoking the `pThrottle`-wrapped function), issuing the HTTP GET, and
populating the cache.  The cache is modelled by the value `cache.get(url)`
resolves to (`Json.null` when absent, per `ApiCache.get`), the transport by
the settled outcome of `this.client.get(url).json()`.  The code guards the
cached value with `if (cachedData)` — JavaScript truthiness, not a
null-check. -/

/-- Observable steps of one `fetchJson` call, in order. -/
inductive FetchEvent : Type where
  | cacheGet : String → FetchEvent
  | throttleAcquire : FetchEvent
  | netGet : String → FetchEvent
  | cacheSet : String → FetchEvent
deriving DecidableEq, Repr

/-- Underlying transport failure (`ky` error). -/
structure HttpError where
  message : String
  statusCode : Option Nat
deriving DecidableEq, Repr

/-- The `NetworkError` thrown by `fetchJson`, carrying the URL, the
underlying message and the HTTP status when available. -/
structure NetworkError where
  url : String
  originalError : String
  statusCode : Option Nat
deriving DecidableEq, Repr

/-- The throttled network leg of `fetchJson`: acquire the rate limiter,
issue the GET, and on success populate the cache when caching is enabled. -/
def fetchJsonNet (enabled : Bool) (net : String → Except HttpError Json)
    (url : String) (evs : List FetchEvent) :
    Except NetworkError Json × List FetchEvent :=
  match net url with
  | .ok data =>
    (.ok data,
      evs ++ [.throttleAcquire, .netGet url] ++
        (if enabled then [.cacheSet url] else []))
  | .error e =>
    (.error ⟨url, e.message, e.statusCode⟩,
      evs ++ [.throttleAcquire, .netGet url])

/-- Embedding of `fetchJson(url)`: with caching enabled the cache is
consulted first and a truthy cached value is returned at once; otherwise
the throttled fetch runs. -/
def fetchJson (enabled : Bool) (cached : String → Json)
    (net : String → Except HttpError Json) (url : String) :
    Except NetworkError Json × List FetchEvent :=
  if enabled then
    let c := cached url
    if c.truthy then (.ok c, [.cacheGet url])
    else fetchJsonNet enabled net url [.cacheGet url]
  else fetchJsonNet enabled net url []

/-- Counterexample to C4 as stated: a cache hit is a non-absent stored value
(`ApiCache.get` signals absence by `null`), but `fetchJson` tests the cached
value with JavaScript truthiness.  With the (non-null) cached value `false`
the code acquires the rate limiter and issues the GET anyway, returning the
network response instead of the cached value. -/
theorem fetchJson_cache_hit_counterexample :
    ¬ (∀ (cached : String → Json) (net : String → Except HttpError Json)
        (url : String), cached url ≠ Json.null →
          (fetchJson true cached net url).1 = Except.ok (cached url) ∧
          FetchEvent.netGet url ∉ (fetchJson true cached net url).2 ∧
          FetchEvent.throttleAcquire ∉ (fetchJson true cached net url).2) := by
  intro h
  have hc := h (fun _ => Json.bool false) (fun _ => Except.ok (Json.num 1)) "u"
    (fun hnull => Json.noConfusion hnull)
  have hev : (fetchJson true (fun _ => Json.bool false)
      (fun _ => Except.ok (Json.num 1)) "u").2 =
      [FetchEvent.cacheGet "u", FetchEvent.throttleAcquire,
        FetchEvent.netGet "u", FetchEvent.cacheSet "u"] := rfl
  exact hc.2.1 (hev ▸ (by decide))

/-- C4 as amended: with caching enabled, `fetchJson` consults the cache
first; when the cached value is truthy it is returned immediately — the
event trace is exactly the cache consultation, so no rate-limiter permit is
consumed and no network request is issued.  When the cached value is falsy
(in particular `null`, i.e. a cache miss) or caching is disabled, the call
acquires the rate limiter and issues the GET; with caching disabled the
cache is never consulted. -/
theorem fetchJson_cache_first (cached : String → Json)
    (net : String → Except HttpError Json) (url : String) :
    ((cached url).truthy = true →
      (fetchJson true cached net url).1 = Except.ok (cached url) ∧
      (fetchJson true cached net url).2 = [FetchEvent.cacheGet url]) ∧
    ((cached url).truthy = false →
      (fetchJson true cached net url).2.head? = some (FetchEvent.cacheGet url) ∧
      FetchEvent.throttleAcquire ∈ (fetchJson true cached net url).2 ∧
      FetchEvent.netGet url ∈ (fetchJson true cached net url).2) ∧
    (FetchEvent.throttleAcquire ∈ (fetchJson false cached net url).2 ∧
      FetchEvent.netGet url ∈ (fetchJson false cached net url).2 ∧
      FetchEvent.cacheGet url ∉ (fetchJson false cached net url).2) := by
  refine ⟨fun htruthy => ?_, fun hfalsy => ?_, ?_⟩
  · simp [fetchJson, htruthy]
  · cases hnet : net url <;>
      simp [fetchJson, fetchJsonNet, hfalsy, hnet]
  · cases hnet : net url <;>
      simp [fetchJson, fetchJsonNet, hnet]

/-- Witness for C4 (amended) at concrete inputs: a truthy cached object is
returned with a trace consisting of the cache consultation only. -/
theorem fetchJson_cache_first_witness :
    (fetchJson true (fun _ => Json.obj [("a", Json.num 1)])
        (fun _ => Except.ok (Json.num 2)) "u").1 =
        Except.ok (Json.obj [("a", Json.num 1)]) ∧
      (fetchJson true (fun _ => Json.obj [("a", Json.num 1)])
        (fun _ => Except.ok (Json.num 2)) "u").2 = [FetchEvent.cacheGet "u"] :=
  (fetchJson_cache_first (fun _ => Json.obj [("a", Json.num 1)])
    (fun _ => Except.ok (Json.num 2)) "u").1 rfl

/-! ## Per-route stop collection (`CTBDataCollector.collectRouteStops`)

Source: `src/lib/data-collector.js` lines 68–100.  The inbound and outbound
legs are issued as a `Promise.allSettled` pair, so each leg settles
independently; the settled outcome of each leg is a parameter.  A fulfilled
leg contributes `value.data || []`, a rejected leg contributes `[]`; the
`error` flag is set when either leg rejected.  (`Promise.allSettled` never
rejects, so the surrounding `catch` is unreachable.) -/

/-- Response envelope of the route-stop endpoint: `\x7bdata: [...]\x7d`, with a
nullish or missing payload modelled as `none`. -/
structure RouteStopsResponse where
  data : Option (List Json)

/-- Composite result of `collectRouteStops`. -/
structure RouteStopsResult where
  route : String
  inbound : List Json
  outbound : List Json
  error : Bool

/-- Embedding of `collectRouteStops(route)` as a function of the two settled
leg outcomes. -/
def collectRouteStops (route : String)
    (inboundRes outboundRes : Except NetworkError RouteStopsResponse) :
    RouteStopsResult where
  route := route
  inbound :=
    match inboundRes with
    | .ok r => r.data.getD []
    | .error _ => []
  outbound :=
    match outboundRes with
    | .ok r => r.data.getD []
    | .error _ => []
  error :=
    (match inboundRes with | .ok _ => false | .error _ => true) ||
      (match outboundRes with | .ok _ => false | .error _ => true)

/-- C7: `collectRouteStops` always carries the route identifier and both
direction arrays; a rejected leg contributes an empty array for its
direction and forces `error = true`, while a fulfilled leg's payload is
retained (`data` with the empty-array fallback) regardless of the other
leg; `error` is false exactly when both legs fulfilled. -/
theorem collectRouteStops_tolerates_leg_failure (route : String)
    (inboundRes outboundRes : Except NetworkError RouteStopsResponse) :
    (collectRouteStops route inboundRes outboundRes).route = route ∧
    (∀ e, inboundRes = .error e →
      (collectRouteStops route inboundRes outboundRes).inbound = [] ∧
      (collectRouteStops route inboundRes outboundRes).error = true) ∧
    (∀ e, outboundRes = .error e →
      (collectRouteStops route inboundRes outboundRes).outbound = [] ∧
      (collectRouteStops route inboundRes outboundRes).error = true) ∧
    (∀ r, inboundRes = .ok r →
      (collectRouteStops route inboundRes outboundRes).inbound = r.data.getD []) ∧
    (∀ r, outboundRes = .ok r →
      (collectRouteStops route inboundRes outboundRes).outbound = r.data.getD []) ∧
    ((collectRouteStops route inboundRes outboundRes).error = false ↔
      (∃ r, inboundRes = .ok r) ∧ (∃ r, outboundRes = .ok r)) := by
  refine ⟨rfl, ?_, ?_, ?_, ?_, ?_⟩
  · rintro e rfl
    cases outboundRes <;> exact ⟨rfl, rfl⟩
  · rintro e rfl
    cases inboundRes <;> exact ⟨rfl, rfl⟩
  · rintro r rfl
    rfl
  · rintro r rfl
    rfl
  · cases inboundRes <;> cases outboundRes <;>
      simp [collectRouteStops]

/-- Witness for C7 at a concrete input: the outbound leg rejects while the
inbound leg fulfills with one stop; the inbound data is retained, the
outbound array is empty, and the error flag is set. -/
theorem collectRouteStops_tolerates_leg_failure_witness :
    (collectRouteStops "1A"
        (Except.ok ⟨some [Json.str "S1"]⟩)
        (Except.error ⟨"u", "timeout", none⟩)).inbound = [Json.str "S1"] ∧
    (collectRouteStops "1A"
        (Except.ok ⟨some [Json.str "S1"]⟩)
        (Except.error ⟨"u", "timeout", none⟩)).outbound = [] ∧
    (collectRouteStops "1A"
        (Except.ok ⟨some [Json.str "S1"]⟩)
        (Except.error ⟨"u", "timeout", none⟩)).error = true := by
  have h := collectRouteStops_tolerates_leg_failure "1A"
    (Except.ok ⟨some [Json.str "S1"]⟩) (Except.error ⟨"u", "timeout", none⟩)
  exact ⟨h.2.2.2.1 ⟨some [Json.str "S1"]⟩ rfl,
    (h.2.2.1 ⟨"u", "timeout", none⟩ rfl).1,
    (h.2.2.1 ⟨"u", "timeout", none⟩ rfl).2⟩

/-! ## Stop enrichment (`enrichStopWithRoutes`)

Source: `src/lib/base-data-processor.js` lines 31–44, duplicated in
`src/lib/data-processor.js` lines 44–57 (CTB), and the KMB variant at
`src/lib/data-processor.js` lines 105–118.  The stop record is a JavaScript
object (`JsObj`); the stop→routes map holds either a plain array or a `Set`
(whose `Array.from` yields insertion order); `new Date().toISOString()` is
an explicit parameter.  The result is the spread
`\x7b...stopData, routes, data_timestamp\x7d`. -/

/-- A value of the stop→routes map: a plain array or a JavaScript `Set`
(kept as its insertion-order element list). -/
inductive RoutesVal : Type where
  | arr : List String → RoutesVal
  | set : List String → RoutesVal

/-- The array the map value produces: an array is used as is, a `Set` goes
through `Array.from`. -/
def RoutesVal.toList : RoutesVal → List String
  | .arr l => l
  | .set l => l

/-- The `routes` value computed by the Base/CTB `enrichStopWithRoutes`:
`stopRoutesMap[stopId] ? (array or Array.from of the Set) :
(stopData.routes || [])`. -/
def enrichRoutesValue (stopData : JsObj)
    (stopRoutesMap : String → Option RoutesVal) (stopId : String) : Json :=
  match stopRoutesMap stopId with
  | some v => Json.arr (v.toList.map Json.str)
  | none =>
    match objLookup "routes" stopData with
    | some r => if r.truthy then r else Json.arr []
    | none => Json.arr []

/-- Embedding of `enrichStopWithRoutes(stopData, stopRoutesMap, stopId)`
(Base/CTB variant): a present map entry wins; otherwise the record's own
truthy `routes` value is kept, defaulting to `[]`. -/
def enrichStopWithRoutes (stopData : JsObj)
    (stopRoutesMap : String → Option RoutesVal) (stopId : String)
    (now : String) : JsObj :=
  objSet (objSet stopData "routes" (enrichRoutesValue stopData stopRoutesMap stopId))
    "data_timestamp" (Json.str now)

/-- Embedding of the KMB `enrichStopWithRoutes`
(`src/lib/data-processor.js` lines 105–118): same shape, but a missing map
entry falls back to the empty array rather than the record's own routes. -/
def kmbEnrichStopWithRoutes (stopData : JsObj)
    (stopRoutesMap : String → Option RoutesVal) (stopId : String)
    (now : String) : JsObj :=
  let routes : Json :=
    match stopRoutesMap stopId with
    | some v => Json.arr (v.toList.map Json.str)
    | none => Json.arr []
  objSet (objSet stopData "routes" routes) "data_timestamp" (Json.str now)

theorem enrichRoutesValue_truthy (stopData : JsObj)
    (stopRoutesMap : String → Option RoutesVal) (stopId : String) :
    (enrichRoutesValue stopData stopRoutesMap stopId).truthy = true := by
  unfold enrichRoutesValue
  cases stopRoutesMap stopId with
  | some v => rfl
  | none =>
    cases objLookup "routes" stopData with
    | none => rfl
    | some r =>
      show (if r.truthy = true then r else Json.arr []).truthy = true
      by_cases hr : r.truthy = true
      · rw [if_pos hr]
        exact hr
      · rw [if_neg hr]
        rfl

theorem enrich_lookup_routes (stopData : JsObj)
    (stopRoutesMap : String → Option RoutesVal) (stopId : String)
    (now : String) :
    objLookup "routes" (enrichStopWithRoutes stopData stopRoutesMap stopId now) =
      some (enrichRoutesValue stopData stopRoutesMap stopId) := by
  unfold enrichStopWithRoutes
  rw [objLookup_objSet_other _ _ _ _ (by decide), objLookup_objSet_self]

theorem enrichRoutesValue_stable (stopData : JsObj)
    (stopRoutesMap : String → Option RoutesVal) (stopId t₁ : String) :
    enrichRoutesValue (enrichStopWithRoutes stopData stopRoutesMap stopId t₁)
        stopRoutesMap stopId =
      enrichRoutesValue stopData stopRoutesMap stopId := by
  cases hm : stopRoutesMap stopId with
  | some v => simp [enrichRoutesValue, hm]
  | none =>
    have h1 := enrich_lookup_routes stopData stopRoutesMap stopId t₁
    have h2 := enrichRoutesValue_truthy stopData stopRoutesMap stopId
    conv_lhs => rw [enrichRoutesValue, hm]
    rw [h1]
    show (if (enrichRoutesValue stopData stopRoutesMap stopId).truthy = true
        then enrichRoutesValue stopData stopRoutesMap stopId
        else Json.arr []) =
      enrichRoutesValue stopData stopRoutesMap stopId
    rw [if_pos h2]

theorem objSet_keys_of_lookup {o : JsObj} {k : String} {v₂ : Json} (v : Json)
    (h : objLookup k o = some v₂) :
    (objSet o k v).map Prod.fst = o.map Prod.fst := by
  induction o with
  | nil => simp [objLookup] at h
  | cons p rest ih =>
    obtain ⟨k₂, v₃⟩ := p
    by_cases hk : k₂ = k
    · simp [objSet, hk]
    · rw [objLookup, if_neg hk] at h
      simp [objSet, hk, ih h]

/-- C8: enriching an already-enriched stop record again with the same
stop→routes map and stop id (and a later timestamp) yields a record whose
every field agrees with the first call's output except `data_timestamp`,
which carries the second timestamp; the field names and their order are
also unchanged. -/
theorem enrichStopWithRoutes_idempotent (stopData : JsObj)
    (stopRoutesMap : String → Option RoutesVal) (stopId t₁ t₂ : String) :
    (∀ k, k ≠ "data_timestamp" →
      objLookup k (enrichStopWithRoutes
          (enrichStopWithRoutes stopData stopRoutesMap stopId t₁)
          stopRoutesMap stopId t₂) =
        objLookup k (enrichStopWithRoutes stopData stopRoutesMap stopId t₁)) ∧
    objLookup "data_timestamp" (enrichStopWithRoutes
        (enrichStopWithRoutes stopData stopRoutesMap stopId t₁)
        stopRoutesMap stopId t₂) = some (Json.str t₂) ∧
    (enrichStopWithRoutes (enrichStopWithRoutes stopData stopRoutesMap stopId t₁)
        stopRoutesMap stopId t₂).map Prod.fst =
      (enrichStopWithRoutes stopData stopRoutesMap stopId t₁).map Prod.fst := by
  have hstable := enrichRoutesValue_stable stopData stopRoutesMap stopId t₁
  have hroutes₁ := enrich_lookup_routes stopData stopRoutesMap stopId t₁
  refine ⟨?_, ?_, ?_⟩
  · intro k hk
    show objLookup k (objSet (objSet
        (enrichStopWithRoutes stopData stopRoutesMap stopId t₁) "routes"
        (enrichRoutesValue (enrichStopWithRoutes stopData stopRoutesMap stopId t₁)
          stopRoutesMap stopId)) "data_timestamp" (Json.str t₂)) = _
    rw [objLookup_objSet_other _ _ _ _ (Ne.symm hk), hstable]
    by_cases hkr : k = "routes"
    · subst hkr
      rw [objLookup_objSet_self, hroutes₁]
    · rw [objLookup_objSet_other _ _ _ _ (Ne.symm hkr)]
  · exact objLookup_objSet_self _ _ _
  · show (objSet (objSet
        (enrichStopWithRoutes stopData stopRoutesMap stopId t₁) "routes"
        (enrichRoutesValue (enrichStopWithRoutes stopData stopRoutesMap stopId t₁)
          stopRoutesMap stopId)) "data_timestamp" (Json.str t₂)).map Prod.fst = _
    have hts₁ : objLookup "data_timestamp"
        (enrichStopWithRoutes stopData stopRoutesMap stopId t₁) =
        some (Json.str t₁) := objLookup_objSet_self _ _ _
    have hts₂ : objLookup "data_timestamp"
        (objSet (enrichStopWithRoutes stopData stopRoutesMap stopId t₁) "routes"
          (enrichRoutesValue (enrichStopWithRoutes stopData stopRoutesMap stopId t₁)
            stopRoutesMap stopId)) = some (Json.str t₁) := by
      rw [objLookup_objSet_other _ _ _ _ (by decide)]
      exact hts₁
    rw [objSet_keys_of_lookup _ hts₂, objSet_keys_of_lookup _ hroutes₁]

/-- Witness for C8 at a concrete input: re-enriching an enriched two-field
record leaves the `name_en` and `routes` fields of the first output
untouched and replaces only the timestamp. -/
theorem enrichStopWithRoutes_idempotent_witness :
    objLookup "name_en" (enrichStopWithRoutes
        (enrichStopWithRoutes [("name_en", Json.str "Central"), ("lat", Json.str "22.28")]
          (fun _ => some (RoutesVal.set ["1A"])) "S1" "2024-01-01")
        (fun _ => some (RoutesVal.set ["1A"])) "S1" "2024-01-02") =
      objLookup "name_en" (enrichStopWithRoutes
        [("name_en", Json.str "Central"), ("lat", Json.str "22.28")]
        (fun _ => some (RoutesVal.set ["1A"])) "S1" "2024-01-01") ∧
    objLookup "routes" (enrichStopWithRoutes
        (enrichStopWithRoutes [("name_en", Json.str "Central"), ("lat", Json.str "22.28")]
          (fun _ => some (RoutesVal.set ["1A"])) "S1" "2024-01-01")
        (fun _ => some (RoutesVal.set ["1A"])) "S1" "2024-01-02") =
      objLookup "routes" (enrichStopWithRoutes
        [("name_en", Json.str "Central"), ("lat", Json.str "22.28")]
        (fun _ => some (RoutesVal.set ["1A"])) "S1" "2024-01-01") :=
  ⟨(enrichStopWithRoutes_idempotent
      [("name_en", Json.str "Central"), ("lat", Json.str "22.28")]
      (fun _ => some (RoutesVal.set ["1A"])) "S1" "2024-01-01" "2024-01-02").1
      "name_en" (by decide),
   (enrichStopWithRoutes_idempotent
      [("name_en", Json.str "Central"), ("lat", Json.str "22.28")]
      (fun _ => some (RoutesVal.set ["1A"])) "S1" "2024-01-01" "2024-01-02").1
      "routes" (by decide)⟩

/-- C10: enrichment is frame-preserving — for both the Base/CTB and the KMB
variant of `enrichStopWithRoutes`, every field other than `routes` and
`data_timestamp` of the output record has exactly the value it has in the
input record. -/
theorem enrichStopWithRoutes_frame (stopData : JsObj)
    (stopRoutesMap : String → Option RoutesVal) (stopId now : String) :
    (∀ k, k ≠ "routes" → k ≠ "data_timestamp" →
      objLookup k (enrichStopWithRoutes stopData stopRoutesMap stopId now) =
        objLookup k stopData) ∧
    (∀ k, k ≠ "routes" → k ≠ "data_timestamp" →
      objLookup k (kmbEnrichStopWithRoutes stopData stopRoutesMap stopId now) =
        objLookup k stopData) := by
  constructor
  · intro k hkr hkt
    unfold enrichStopWithRoutes
    rw [objLookup_objSet_other _ _ _ _ (Ne.symm hkt),
      objLookup_objSet_other _ _ _ _ (Ne.symm hkr)]
  · intro k hkr hkt
    unfold kmbEnrichStopWithRoutes
    rw [objLookup_objSet_other _ _ _ _ (Ne.symm hkt),
      objLookup_objSet_other _ _ _ _ (Ne.symm hkr)]

/-- Witness for C10 at a concrete input: the `name_en` field survives both
enrichment variants unchanged. -/
theorem enrichStopWithRoutes_frame_witness :
    objLookup "name_en" (enrichStopWithRoutes [("name_en", Json.str "Central")]
        (fun _ => none) "S1" "2024-01-01") =
      objLookup "name_en" [("name_en", Json.str "Central")] ∧
    objLookup "name_en" (kmbEnrichStopWithRoutes [("name_en", Json.str "Central")]
        (fun _ => none) "S1" "2024-01-01") =
      objLookup "name_en" [("name_en", Json.str "Central")] :=
  ⟨(enrichStopWithRoutes_frame [("name_en", Json.str "Central")]
      (fun _ => none) "S1" "2024-01-01").1 "name_en" (by decide) (by decide),
   (enrichStopWithRoutes_frame [("name_en", Json.str "Central")]
      (fun _ => none) "S1" "2024-01-01").2 "name_en" (by decide) (by decide)⟩

/-! ## Enriched route data (`CTBDataProcessor.createEnrichedRouteData`)

Source: `src/lib/data-processor.js` lines 59–98.  The inbound and outbound
association lists are concatenated and sorted in place with the comparator
`(a, b) => a.dir !== b.dir ? a.dir.localeCompare(b.dir) : a.seq - b.seq`;
JavaScript `Array.prototype.sort` with a consistent comparator is a stable
sort by the comparator, embedded as the stable `insertionSort` by the
relation `comparator ≤ 0`.  Each sorted association is then enriched with
the matching stop detail record when one is found and carries data. -/

/-- One route-stop association of the CTB API: stop id, direction tag
(`"I"`/`"O"`), numeric sequence. -/
structure RouteStop where
  stop : String
  dir : String
  seq : Int
deriving DecidableEq, Repr

/-- The two direction lists of one route (`routeStops[route]`). -/
structure DirStops where
  inbound : List RouteStop
  outbound : List RouteStop

/-- Localized names and coordinates of one stop detail record. -/
structure StopDetailData where
  name_tc : String
  name_en : String
  name_sc : String
  lat : String
  long : String
deriving DecidableEq, Repr

/-- One entry of `successfulStops`: stop id plus its detail payload. -/
structure StopDetailRecord where
  stopId : String
  data : Option StopDetailData
deriving DecidableEq, Repr

/-- Embedding of `String.prototype.localeCompare` on the identifiers in
scope: negative, zero or positive according to lexicographic order. -/
def localeCompare (a b : String) : Int :=
  if a = b then 0 else if strLe a b then -1 else 1

/-- The CTB route-stop comparator. -/
def ctbCmp (a b : RouteStop) : Int :=
  if a.dir ≠ b.dir then localeCompare a.dir b.dir else a.seq - b.seq

/-- The sort relation induced by the comparator: `ctbCmp a b ≤ 0`. -/
def ctbStopsLe (a b : RouteStop) : Prop := ctbCmp a b ≤ 0

instance : DecidableRel ctbStopsLe := fun a b =>
  inferInstanceAs (Decidable (ctbCmp a b ≤ 0))

theorem ctbStopsLe_iff (a b : RouteStop) :
    ctbStopsLe a b ↔
      (a.dir = b.dir ∧ a.seq ≤ b.seq) ∨ (a.dir ≠ b.dir ∧ strLe a.dir b.dir) := by
  unfold ctbStopsLe ctbCmp localeCompare
  by_cases h : a.dir = b.dir
  · simp [h, sub_nonpos]
  · by_cases h₂ : strLe a.dir b.dir
    · simp [h, h₂]
    · simp [h, h₂]

instance : IsTotal RouteStop ctbStopsLe :=
  ⟨fun a b => by
    rw [ctbStopsLe_iff, ctbStopsLe_iff]
    by_cases h : a.dir = b.dir
    · rcases Int.le_total a.seq b.seq with h₂ | h₂
      · exact Or.inl (Or.inl ⟨h, h₂⟩)
      · exact Or.inr (Or.inl ⟨h.symm, h₂⟩)
    · rcases charListLeb_total a.dir.data b.dir.data with h₂ | h₂
      · exact Or.inl (Or.inr ⟨h, h₂⟩)
      · exact Or.inr (Or.inr ⟨Ne.symm h, h₂⟩)⟩

instance : IsTrans RouteStop ctbStopsLe :=
  ⟨fun a b c hab hbc => by
    rw [ctbStopsLe_iff] at hab hbc ⊢
    rcases hab with ⟨h₁, h₁s⟩ | ⟨h₁, h₁l⟩ <;>
      rcases hbc with ⟨h₂, h₂s⟩ | ⟨h₂, h₂l⟩
    · exact Or.inl ⟨h₁.trans h₂, h₁s.trans h₂s⟩
    · exact Or.inr ⟨by rw [h₁]; exact h₂, by rw [h₁]; exact h₂l⟩
    · exact Or.inr ⟨by rw [← h₂]; exact h₁, by rw [← h₂]; exact h₁l⟩
    · refine Or.inr ⟨fun hac => ?_, charListLeb_trans _ _ _ h₁l h₂l⟩
      rw [← hac] at h₂l
      exact h₁ (antisymm h₁l h₂l)⟩

/-- Enriched route-stop entry: the association, with the attached detail
fields when the detail lookup succeeded with data. -/
structure EnrichedStop where
  stop : RouteStop
  details : Option StopDetailData
deriving DecidableEq, Repr

/-- Output of `createEnrichedRouteData`. -/
structure EnrichedRouteData where
  route : String
  stops : List EnrichedStop
deriving DecidableEq, Repr

/-- Embedding of `CTBDataProcessor.createEnrichedRouteData(route,
routeStops, successfulStops)`, taking the route's entry `routeStops[route]`
directly. -/
def createEnrichedRouteData (route : String) (stops : DirStops)
    (successfulStops : List StopDetailRecord) : EnrichedRouteData where
  route := route
  stops :=
    (List.insertionSort ctbStopsLe (stops.inbound ++ stops.outbound)).map
      (fun s =>
        { stop := s
          details := (successfulStops.find? (fun d => d.stopId == s.stop)).bind
            (fun d => d.data) })

/-! ## KMB enriched route data (`KMBDataProcessor.createEnrichedRouteData`)

Source: `src/lib/data-processor.js` lines 120–169.  Same structure as the
CTB variant, with the KMB field names: the direction is `a.bound || ''` and
the sequence is `parseInt(a.seq) || 0` on the string-encoded field. -/

/-- Value of the leading decimal-digit prefix, accumulating left to right
and stopping at the first non-digit. -/
def digitsPrefixVal : List Char → Nat → Nat
  | c :: cs, acc =>
    if c.isDigit then digitsPrefixVal cs (10 * acc + (c.toNat - 48)) else acc
  | [], acc => acc

/-- Embedding of `parseInt(s)`: an optional sign followed by at least one
digit parses the leading integer prefix; anything else is `NaN`, modelled
as `none`. -/
def jsParseInt (s : String) : Option Int :=
  match s.data with
  | '-' :: c :: cs =>
    if c.isDigit then some (-(digitsPrefixVal (c :: cs) 0 : Int)) else none
  | '+' :: c :: cs =>
    if c.isDigit then some ((digitsPrefixVal (c :: cs) 0 : Int)) else none
  | c :: cs =>
    if c.isDigit then some ((digitsPrefixVal (c :: cs) 0 : Int)) else none
  | [] => none

/-- Embedding of `parseInt(s) || 0`: `NaN` (and `0` itself) becomes `0`. -/
def jsParseIntOr0 (s : String) : Int :=
  match jsParseInt s with
  | some n => n
  | none => 0

/-- One route-stop association of the KMB API: the direction tag may be
missing (`a.bound || ''`) and the sequence is string-encoded. -/
structure KmbRouteStop where
  stop : String
  bound : Option String
  seq : String
deriving DecidableEq, Repr

/-- The direction/sequence view of a KMB association used by the
comparator: `(a.bound || '', parseInt(a.seq) || 0)`. -/
def kmbToRouteStop (a : KmbRouteStop) : RouteStop :=
  ⟨a.stop, a.bound.getD "", jsParseIntOr0 a.seq⟩

/-- The KMB route-stop sort relation: comparator
`(aDir ≠ bDir ? localeCompare : aSeq − bSeq) ≤ 0` on that view. -/
def kmbStopsLe (a b : KmbRouteStop) : Prop :=
  ctbStopsLe (kmbToRouteStop a) (kmbToRouteStop b)

instance : DecidableRel kmbStopsLe := fun a b =>
  inferInstanceAs (Decidable (ctbStopsLe (kmbToRouteStop a) (kmbToRouteStop b)))

instance : IsTotal KmbRouteStop kmbStopsLe :=
  ⟨fun a b => total_of ctbStopsLe (kmbToRouteStop a) (kmbToRouteStop b)⟩

instance : IsTrans KmbRouteStop kmbStopsLe :=
  ⟨fun _ _ _ hab hbc => Trans.trans (r := ctbStopsLe) (s := ctbStopsLe) hab hbc⟩

/-- The two direction lists of one KMB route. -/
structure KmbDirStops where
  inbound : List KmbRouteStop
  outbound : List KmbRouteStop

/-- Enriched KMB route-stop entry. -/
structure KmbEnrichedStop where
  stop : KmbRouteStop
  details : Option StopDetailData
deriving DecidableEq, Repr

/-- Output of the KMB `createEnrichedRouteData`. -/
structure KmbEnrichedRouteData where
  route : String
  stops : List KmbEnrichedStop
deriving DecidableEq, Repr

/-- Embedding of `KMBDataProcessor.createEnrichedRouteData(route,
routeStops, successfulStops)`: a route absent from `routeStops` yields an
empty stop list; otherwise concatenate, sort stably by the comparator, and
attach detail records. -/
def kmbCreateEnrichedRouteData (route : String) (stops? : Option KmbDirStops)
    (successfulStops : List StopDetailRecord) : KmbEnrichedRouteData :=
  match stops? with
  | none => { route := route, stops := [] }
  | some stops =>
    { route := route
      stops :=
        (List.insertionSort kmbStopsLe (stops.inbound ++ stops.outbound)).map
          (fun s =>
            { stop := s
              details :=
                (successfulStops.find? (fun d => d.stopId == s.stop)).bind
                  (fun d => d.data) }) }

/-- C6: the stop entries output by `createEnrichedRouteData` are sorted by
direction first (lexicographically, so every `"I"` entry precedes every
`"O"` entry) and by ascending numeric sequence within equal directions:
pairwise ordering of the output under the comparator order, for the CTB
variant and for the KMB variant (on `bound || ''` and `parseInt(seq) || 0`),
together with the concrete example — combined input associations
[(O,3), (I,1), (I,2)] come out as [(I,1), (I,2), (O,3)]. -/
theorem createEnrichedRouteData_sorted :
    (∀ (route : String) (stops : DirStops)
        (successfulStops : List StopDetailRecord),
      (createEnrichedRouteData route stops successfulStops).stops.Pairwise
        (fun a b => (a.stop.dir = b.stop.dir ∧ a.stop.seq ≤ b.stop.seq) ∨
          (a.stop.dir ≠ b.stop.dir ∧ strLe a.stop.dir b.stop.dir))) ∧
    ((createEnrichedRouteData "R"
        ⟨[⟨"s1", "O", 3⟩, ⟨"s2", "I", 1⟩, ⟨"s3", "I", 2⟩], []⟩ []).stops.map
      (fun e => (e.stop.dir, e.stop.seq)) = [("I", 1), ("I", 2), ("O", 3)]) ∧
    (∀ (route : String) (stops : KmbDirStops)
        (successfulStops : List StopDetailRecord),
      (kmbCreateEnrichedRouteData route (some stops) successfulStops).stops.Pairwise
        (fun a b =>
          (a.stop.bound.getD "" = b.stop.bound.getD "" ∧
            jsParseIntOr0 a.stop.seq ≤ jsParseIntOr0 b.stop.seq) ∨
          (a.stop.bound.getD "" ≠ b.stop.bound.getD "" ∧
            strLe (a.stop.bound.getD "") (b.stop.bound.getD "")))) := by
  refine ⟨?_, by decide, ?_⟩
  · intro route stops successfulStops
    have hs : List.Sorted ctbStopsLe
        (List.insertionSort ctbStopsLe (stops.inbound ++ stops.outbound)) :=
      List.sorted_insertionSort _ _
    unfold createEnrichedRouteData
    rw [List.pairwise_map]
    exact hs.imp (fun h => (ctbStopsLe_iff _ _).mp h)
  · intro route stops successfulStops
    have hs : List.Sorted kmbStopsLe
        (List.insertionSort kmbStopsLe (stops.inbound ++ stops.outbound)) :=
      List.sorted_insertionSort _ _
    unfold kmbCreateEnrichedRouteData
    rw [List.pairwise_map]
    exact hs.imp (fun h =>
      (ctbStopsLe_iff (kmbToRouteStop _) (kmbToRouteStop _)).mp h)

/-! ## Optimized stop-detail collection
(`CTBDataCollector.collectOptimizedStopDetails`)

Source: `src/lib/data-collector.js` lines 218–274, with `collectStopDetails`
(lines 102–115) and `collectAllStopDetails` (lines 181–216).  The previously
published snapshot `existingAllStops` maps stop ids to their published
records (a record with a possibly missing `routes` array plus an opaque
payload); the stop→routes map has already been converted to plain arrays by
the caller (`ctb-service.js`).  The single forward pass that partitions
`stopIds` into `stopsFromCache` and `stopsToFetch` is the recursion
`analyzeStops`; the fresh fetches run through the concurrency batcher with
the never-throwing `collectStopDetails` (`Promise.allSettled` over a
processor that catches everything, so rejection is impossible — rejection
reason type `Empty`), and the mapping `\x7b...(result.value || result),
fromCache: false\x7d` unwraps the settled value. -/

/-- A stop record as published in `allstops.json` or returned by the
stop-detail endpoint: its `routes` array when present, the rest opaque. -/
structure SnapshotStop where
  routes : Option (List String)
  payload : Json

/-- Network behaviour of one stop-detail fetch, already caught by
`collectStopDetails`: the payload (`data.data || null`) and the error flag. -/
structure StopFetchOut where
  data : Option SnapshotStop
  error : Bool

/-- Result record of `collectStopDetails(stopId)`. -/
structure StopDetailOutcome where
  stopId : String
  data : Option SnapshotStop
  error : Bool

/-- Entry of the combined result of `collectOptimizedStopDetails`. -/
structure OptStopResult where
  stopId : String
  data : Option SnapshotStop
  error : Bool
  fromCache : Bool

/-- The reuse test of the analysis loop: the stop has a (truthy) snapshot
record and `compareRoutes(existingStop.routes, stopRoutesMap[stopId] || [])`
holds. -/
def stopUnchanged (existingAllStops : String → Option SnapshotStop)
    (stopRoutesMap : String → Option (List String)) (stopId : String) : Bool :=
  match existingAllStops stopId with
  | some ex => compareRoutes ex.routes (some ((stopRoutesMap stopId).getD []))
  | none => false

/-- The analysis pass of `collectOptimizedStopDetails`: walk `stopIds` in
order, copying unchanged stops into the cached-results list (tagged
`fromCache`) and the rest into the to-fetch list. -/
def analyzeStops (existingAllStops : String → Option SnapshotStop)
    (stopRoutesMap : String → Option (List String)) :
    List String → List OptStopResult × List String
  | [] => ([], [])
  | stopId :: rest =>
    let acc := analyzeStops existingAllStops stopRoutesMap rest
    if stopUnchanged existingAllStops stopRoutesMap stopId then
      (⟨stopId, existingAllStops stopId, false, true⟩ :: acc.1, acc.2)
    else (acc.1, stopId :: acc.2)

/-- Embedding of `collectStopDetails(stopId)`: tags the fetched payload with
the stop id; never throws. -/
def collectStopDetails (fetch : String → StopFetchOut) (stopId : String) :
    StopDetailOutcome :=
  ⟨stopId, (fetch stopId).data, (fetch stopId).error⟩

/-- Embedding of `collectAllStopDetails(stopIds)`: the concurrency batcher
over `collectStopDetails`, whose processor never rejects. -/
def collectAllStopDetails (fetch : String → StopFetchOut)
    (stopIds : List String) (limit : Nat) :
    List (Settled Empty StopDetailOutcome) :=
  processWithConcurrency stopIds
    (fun stopId => Except.ok (collectStopDetails fetch stopId)) limit

/-- The unwrapping `result.value || result` applied to each settled fetch
result (rejection is impossible). -/
def settledValue : Settled Empty StopDetailOutcome → StopDetailOutcome
  | .fulfilled v => v
  | .rejected e => e.elim

/-- Embedding of `collectOptimizedStopDetails(stopIds, stopRoutesMap)`:
cached entries first, then the fresh fetch results tagged
`fromCache: false`. -/
def collectOptimizedStopDetails (existingAllStops : String → Option SnapshotStop)
    (stopRoutesMap : String → Option (List String)) (stopIds : List String)
    (fetch : String → StopFetchOut) (limit : Nat) : List OptStopResult :=
  let analyzed := analyzeStops existingAllStops stopRoutesMap stopIds
  let fetchResults := collectAllStopDetails fetch analyzed.2 limit
  analyzed.1 ++ fetchResults.map (fun r =>
    ⟨(settledValue r).stopId, (settledValue r).data, (settledValue r).error, false⟩)

theorem analyzeStops_fst (existingAllStops : String → Option SnapshotStop)
    (stopRoutesMap : String → Option (List String)) :
    ∀ stopIds : List String,
      (analyzeStops existingAllStops stopRoutesMap stopIds).1 =
        (stopIds.filter (stopUnchanged existingAllStops stopRoutesMap)).map
          (fun stopId => ⟨stopId, existingAllStops stopId, false, true⟩)
  | [] => rfl
  | stopId :: rest => by
    by_cases h : stopUnchanged existingAllStops stopRoutesMap stopId
    · simp [analyzeStops, List.filter_cons, h,
        analyzeStops_fst existingAllStops stopRoutesMap rest]
    · simp [analyzeStops, List.filter_cons, h,
        analyzeStops_fst existingAllStops stopRoutesMap rest]

theorem analyzeStops_snd (existingAllStops : String → Option SnapshotStop)
    (stopRoutesMap : String → Option (List String)) :
    ∀ stopIds : List String,
      (analyzeStops existingAllStops stopRoutesMap stopIds).2 =
        stopIds.filter
          (fun stopId => !(stopUnchanged existingAllStops stopRoutesMap stopId))
  | [] => rfl
  | stopId :: rest => by
    by_cases h : stopUnchanged existingAllStops stopRoutesMap stopId
    · simp [analyzeStops, List.filter_cons, h,
        analyzeStops_snd existingAllStops stopRoutesMap rest]
    · simp [analyzeStops, List.filter_cons, h,
        analyzeStops_snd existingAllStops stopRoutesMap rest]

theorem filter_append_not_filter_perm {α : Type} (p : α → Bool) :
    ∀ l : List α, (l.filter p ++ l.filter (fun x => !(p x))).Perm l
  | [] => List.Perm.refl []
  | x :: xs => by
    by_cases h : p x
    · simp only [List.filter_cons, h, Bool.not_true, if_true]
      simpa using (filter_append_not_filter_perm p xs).cons x
    · simp only [List.filter_cons, h, Bool.not_false, if_false]
      simpa using List.perm_middle.trans
        ((filter_append_not_filter_perm p xs).cons x)

/-- C2: in `collectOptimizedStopDetails`, (a) the fresh fetches are issued
exactly for the input stops whose snapshot record is absent or whose
recorded route set differs from the currently computed one; (b) every input
stop with a snapshot record whose route set matches the current one
contributes its previously published record to the combined result, tagged
`fromCache`, and is never in the to-fetch list; and (c) the combined result
carries exactly one entry per input stop id (its stop ids are a permutation
of the input list). -/
theorem collectOptimizedStopDetails_reuses_snapshot
    (existingAllStops : String → Option SnapshotStop)
    (stopRoutesMap : String → Option (List String)) (stopIds : List String)
    (fetch : String → StopFetchOut) (limit : Nat) (hpos : 0 < limit) :
    (analyzeStops existingAllStops stopRoutesMap stopIds).2 =
        stopIds.filter (fun stopId =>
          !(stopUnchanged existingAllStops stopRoutesMap stopId)) ∧
    (∀ stopId ex, stopId ∈ stopIds → existingAllStops stopId = some ex →
      compareRoutes ex.routes (some ((stopRoutesMap stopId).getD [])) = true →
        (⟨stopId, some ex, false, true⟩ : OptStopResult) ∈
          collectOptimizedStopDetails existingAllStops stopRoutesMap stopIds
            fetch limit ∧
        stopId ∉ (analyzeStops existingAllStops stopRoutesMap stopIds).2) ∧
    ((collectOptimizedStopDetails existingAllStops stopRoutesMap stopIds fetch
        limit).map (fun r => r.stopId)).Perm stopIds := by
  refine ⟨analyzeStops_snd existingAllStops stopRoutesMap stopIds, ?_, ?_⟩
  · intro stopId ex hmem hex hcmp
    have hhit : stopUnchanged existingAllStops stopRoutesMap stopId = true := by
      unfold stopUnchanged
      rw [hex]
      exact hcmp
    constructor
    · apply List.mem_append_left
      rw [analyzeStops_fst]
      have : (⟨stopId, some ex, false, true⟩ : OptStopResult) =
          (fun sid => (⟨sid, existingAllStops sid, false, true⟩ : OptStopResult))
            stopId := by
        show (⟨stopId, some ex, false, true⟩ : OptStopResult) =
          ⟨stopId, existingAllStops stopId, false, true⟩
        rw [hex]
      rw [this]
      exact List.mem_map_of_mem _ (List.mem_filter.mpr ⟨hmem, hhit⟩)
    · rw [analyzeStops_snd]
      intro hmem₂
      have := (List.mem_filter.mp hmem₂).2
      rw [hhit] at this
      exact Bool.false_ne_true (by simpa using this.symm)
  · unfold collectOptimizedStopDetails
    rw [List.map_append]
    have h1 : ((analyzeStops existingAllStops stopRoutesMap stopIds).1).map
        (fun r => r.stopId) =
        stopIds.filter (stopUnchanged existingAllStops stopRoutesMap) := by
      rw [analyzeStops_fst, List.map_map]
      exact List.map_id _
    have h2 : ((collectAllStopDetails fetch
          (analyzeStops existingAllStops stopRoutesMap stopIds).2 limit).map
          (fun r => (⟨(settledValue r).stopId, (settledValue r).data,
            (settledValue r).error, false⟩ : OptStopResult))).map
          (fun r => r.stopId) =
        (analyzeStops existingAllStops stopRoutesMap stopIds).2 := by
      rw [collectAllStopDetails,
        processWithConcurrency_eq_map _ limit hpos
          (analyzeStops existingAllStops stopRoutesMap stopIds).2.length _ le_rfl,
        List.map_map, List.map_map]
      exact List.map_id _
    rw [h1, h2, analyzeStops_snd]
    exact filter_append_not_filter_perm _ stopIds

/-- Witness for C2 at a concrete input: two stops, `S1` unchanged in the
snapshot and `S2` absent, batch limit 2; the snapshot record of `S1` is
reused (tagged `fromCache`), `S1` is not fetched, and the combined result
covers both stops. -/
theorem collectOptimizedStopDetails_reuses_snapshot_witness :
    ((⟨"S1", some ⟨some ["1A"], Json.null⟩, false, true⟩ : OptStopResult) ∈
        collectOptimizedStopDetails
          (fun sid => if sid = "S1" then some ⟨some ["1A"], Json.null⟩ else none)
          (fun sid => if sid = "S1" then some ["1A"] else some ["2B"])
          ["S1", "S2"] (fun _ => ⟨none, true⟩) 2 ∧
      "S1" ∉ (analyzeStops
          (fun sid => if sid = "S1" then some ⟨some ["1A"], Json.null⟩ else none)
          (fun sid => if sid = "S1" then some ["1A"] else some ["2B"])
          ["S1", "S2"]).2) ∧
    ((collectOptimizedStopDetails
        (fun sid => if sid = "S1" then some ⟨some ["1A"], Json.null⟩ else none)
        (fun sid => if sid = "S1" then some ["1A"] else some ["2B"])
        ["S1", "S2"] (fun _ => ⟨none, true⟩) 2).map (fun r => r.stopId)).Perm
      ["S1", "S2"] :=
  ⟨(collectOptimizedStopDetails_reuses_snapshot
      (fun sid => if sid = "S1" then some ⟨some ["1A"], Json.null⟩ else none)
      (fun sid => if sid = "S1" then some ["1A"] else some ["2B"])
      ["S1", "S2"] (fun _ => ⟨none, true⟩) 2 (by decide)).2.1
      "S1" ⟨some ["1A"], Json.null⟩ (by decide) (by rfl) (by decide),
   (collectOptimizedStopDetails_reuses_snapshot
      (fun sid => if sid = "S1" then some ⟨some ["1A"], Json.null⟩ else none)
      (fun sid => if sid = "S1" then some ["1A"] else some ["2B"])
      ["S1", "S2"] (fun _ => ⟨none, true⟩) 2 (by decide)).2.2⟩

/-! ## Nearby-stop derivation (`KMBService.addNearbyStopIdsToMemory`)

Source: `src/lib/kmb-service.js` lines 205–243.  The function groups the
stops of `allStopsData` by the string key `lat + "," + long`
(`coordinateMap`), then gives every stop the id list of its coordinate
group minus itself.  The grouping map is embedded extensionally: the group
of a key is, in insertion order, exactly the ids of the entries whose key
matches, so `coordinateMap.get(coordKey)` is inlined as a filter over the
entry list. -/

/-- The coordinate fields of a stop record read by the grouping pass. -/
structure GeoStop where
  lat : String
  long : String
deriving DecidableEq, Repr

/-- The string key `"lat,long"` used for grouping. -/
def coordKey (s : GeoStop) : String := s.lat ++ "," ++ s.long

/-- A stop record after the pass, carrying the added `nearbyStopIDs`. -/
structure GeoStopN where
  lat : String
  long : String
  nearbyStopIDs : List String
deriving DecidableEq, Repr

/-- Embedding of `addNearbyStopIdsToMemory(allStopsData)` (the in-place
mutation is returned as a new map). -/
def addNearbyStopIdsToMemory (allStopsData : List (String × GeoStop)) :
    List (String × GeoStopN) :=
  allStopsData.map (fun e =>
    (e.1,
      { lat := e.2.lat
        long := e.2.long
        nearbyStopIDs :=
          ((allStopsData.filter
              (fun p => coordKey p.2 == coordKey e.2)).map Prod.fst).filter
            (fun nid => !(nid == e.1)) }))

/-- Counterexample to C9 as stated: the grouping key is the bare
concatenation `lat + "," + long`, so two stops with different `(lat, long)`
pairs can share a key when a coordinate contains a comma.  With the pair
`("1", "2,3")` for the first two stops and the different pair
`("1,2", "3")` for the third, all three share the key `"1,2,3"`: the third
stop's `nearbyStopIDs` is `["A", "B"]` instead of the claimed `[]`, and the
first two list the third as well. -/
theorem addNearbyStopIds_counterexample :
    ((⟨"1", "2,3"⟩ : GeoStop) ≠ ⟨"1,2", "3"⟩) ∧
    (addNearbyStopIdsToMemory
        [("A", ⟨"1", "2,3"⟩), ("B", ⟨"1", "2,3"⟩), ("C", ⟨"1,2", "3"⟩)]).map
      (fun e => (e.1, e.2.nearbyStopIDs)) =
      [("A", ["B", "C"]), ("B", ["A", "C"]), ("C", ["A", "B"])] :=
  ⟨by decide, by decide⟩

/-- C9 as amended: in a three-stop map where the first two stops have
identical `(lat, long)` and the third stop's coordinate key
`lat + "," + long` differs from theirs (which the claimed "different
coordinates" guarantees whenever the coordinates are comma-free, e.g.
decimal-encoded), the two coordinate-sharing stops each list exactly the
other, and the third stop's `nearbyStopIDs` is empty. -/
theorem addNearbyStopIds_three_stops (i₁ i₂ i₃ : String) (s₁ s₂ s₃ : GeoStop)
    (h₁₂ : i₁ ≠ i₂) (h₁₃ : i₁ ≠ i₃) (h₂₃ : i₂ ≠ i₃)
    (hlat : s₁.lat = s₂.lat) (hlong : s₁.long = s₂.long)
    (hk : coordKey s₃ ≠ coordKey s₁) :
    (addNearbyStopIdsToMemory [(i₁, s₁), (i₂, s₂), (i₃, s₃)]).map
      (fun e => (e.1, e.2.nearbyStopIDs)) =
      [(i₁, [i₂]), (i₂, [i₁]), (i₃, [])] := by
  have hk12 : coordKey s₂ = coordKey s₁ := by
    simp [coordKey, hlat, hlong]
  simp [addNearbyStopIdsToMemory, hk12, beq_iff_eq, hk, Ne.symm hk,
    h₁₂, Ne.symm h₁₂, h₁₃, Ne.symm h₁₃, h₂₃, Ne.symm h₂₃]

/-- Witness for C9 (amended) at a concrete input: comma-free decimal
coordinates, two stops sharing them and a third apart. -/
theorem addNearbyStopIds_three_stops_witness :
    (addNearbyStopIdsToMemory
        [("A", ⟨"22.28", "114.15"⟩), ("B", ⟨"22.28", "114.15"⟩),
          ("C", ⟨"22.30", "114.17"⟩)]).map
      (fun e => (e.1, e.2.nearbyStopIDs)) =
      [("A", ["B"]), ("B", ["A"]), ("C", [])] :=
  addNearbyStopIds_three_stops "A" "B" "C"
    ⟨"22.28", "114.15"⟩ ⟨"22.28", "114.15"⟩ ⟨"22.30", "114.17"⟩
    (by decide) (by decide) (by decide) rfl rfl (by decide)
